import Mathlib

/-
Verification of the special-case constraint generator of the Quint type
checker (src/quint/src/types/specialConstraints.ts).

The TypeScript module is embedded shallowly: the IR expression and type
grammars become inductive types, the six rule functions and the dispatcher
become Lean functions, and the `Either<Error, Constraint[]>` result becomes
`Except Error (List Constraint)`.  A TypeScript call can also throw (array
destructuring of `undefined` when the argument list is shorter than the
destructuring pattern); that uncatchable failure is modelled by an outer
`Option` layer, with `none` standing for the thrown `TypeError`.
-/

namespace Quint

/-- Quint IR expressions (quintIr.ts), restricted to what this module
inspects: a `kind` discriminant, literal payloads for `str`/`int`/`bool`
literals, plus names and operator applications as representatives of
non-literal expression kinds. -/
inductive QuintEx where
  | name (id : Nat) (name : String)
  | boolEx (id : Nat) (value : Bool)
  | intEx (id : Nat) (value : Int)
  | strEx (id : Nat) (value : String)
  | app (id : Nat) (opcode : String) (args : List QuintEx)

/-- The `kind` discriminant of an IR expression node. -/
def QuintEx.kind : QuintEx → String
  | QuintEx.name _ _ => "name"
  | QuintEx.boolEx _ _ => "bool"
  | QuintEx.intEx _ _ => "int"
  | QuintEx.strEx _ _ => "str"
  | QuintEx.app _ _ _ => "app"

mutual

/-- Modelled from the spec: `expressionToString` from the IR printing module
(IRprinting.ts is not among the provided sources).  The spec describes it as
"a display/stringification function usable when building error messages";
literals print as their values, applications as `op(arg, ..., arg)`. -/
def expressionToString : QuintEx → String
  | QuintEx.name _ n => n
  | QuintEx.boolEx _ b => toString b
  | QuintEx.intEx _ v => toString v
  | QuintEx.strEx _ s => "\"" ++ s ++ "\""
  | QuintEx.app _ op as => op ++ "(" ++ String.intercalate ", " (expressionsToString as) ++ ")"

/-- Modelled from the spec: prints each expression of a list. -/
def expressionsToString : List QuintEx → List String
  | [] => []
  | e :: es => expressionToString e :: expressionsToString es

end

mutual

/-- The Quint type grammar (quintTypes.ts), restricted to the kinds this
module constructs or receives: `var`, `set`, `str`, `int`, `bool`, and the
row-based `rec` and `tup` kinds. -/
inductive QuintType where
  | bool
  | int
  | str
  | var (name : String)
  | set (elem : QuintType)
  | record (fields : Row)
  | tup (fields : Row)

/-- Rows (quintTypes.ts): a `row` node with known fields and a tail, an
open tail variable, or the empty (closed) tail. -/
inductive Row where
  | row (fields : List RowField) (other : Row)
  | var (name : String)
  | empty

/-- One known field of a row: `{ fieldName, fieldType }`. -/
inductive RowField where
  | mk (fieldName : String) (fieldType : QuintType)

end

/-- A type variable, `QuintVarType = { kind: 'var', name: string }`. -/
structure QuintVarType where
  name : String

/-- A `QuintVarType` used in a `QuintType` position. -/
def QuintVarType.toQuintType (v : QuintVarType) : QuintType :=
  QuintType.var v.name

/-- Constraints (types/base.ts): equality between two types, conjunction,
or the trivially satisfied constraint. -/
inductive Constraint where
  | eq (t1 t2 : QuintType) (sourceId : Nat)
  | conjunction (constraints : List Constraint) (sourceId : Nat)
  | empty

/-- Errors (errorTree.ts, not among the provided sources): the module only
ever builds leaves via `buildErrorLeaf`, and the `mergeInMany` combinator
turns a list of errors into one error value (`Error = ErrorTree | Error[]`). -/
inductive Error where
  | leaf (location : String) (message : String)
  | many (errors : List Error)

/-- Modelled from the spec: `buildErrorLeaf` from the error module
(errorTree.ts is not among the provided sources): "an error-construction
utility producing a structured error (leaf) from a context string and a
message string". -/
def buildErrorLeaf (location : String) (message : String) : Error :=
  Error.leaf location message

/-- The error value of an `Either`, when it is a `left`. -/
def errValue {α : Type} : Except Error α → Option Error
  | Except.error l => some l
  | Except.ok _ => none

/-- The success value of an `Either`, when it is a `right`. -/
def okValue {α : Type} : Except Error α → Option α
  | Except.ok r => some r
  | Except.error _ => none

/-- The sweet-monads `mergeInMany` combinator: if every input is a success,
succeed with the list of all values (in order); otherwise fail with the
list of ALL error values (in order). -/
def mergeInMany {α : Type} (es : List (Except Error α)) : Except Error (List α) :=
  let lefts := es.filterMap errValue
  if lefts.isEmpty then Except.ok (es.filterMap okValue)
  else Except.error (Error.many lefts)

/-- JavaScript `Array.map` over a callback that may throw: the first thrown
exception (`none`) propagates out of the whole map. -/
def mapOrThrow {α β : Type} (f : α → Option β) : List α → Option (List β)
  | [] => some []
  | a :: rest => (f a).bind fun b => (mapOrThrow f rest).bind fun bs => some (b :: bs)

/-- lodash `chunk(xs, 2)` as used by the record constructor rule: splits a
list into consecutive pairs; a trailing odd element forms a singleton final
chunk. -/
def chunk2 {α : Type} : List α → List (List α)
  | [] => []
  | [a] => [[a]]
  | a :: b :: rest => [a, b] :: chunk2 rest

/-- lodash `times(n)` (identity iteratee) applied to `Number(bigint)`:
returns `[0, ..., n-1]`.  Per the lodash source it returns `[]` when
`n < 1` or `n > Number.MAX_SAFE_INTEGER`, and caps the returned array at
`MAX_ARRAY_LENGTH = 2^32 - 1` elements.  The `Number` conversion of the
bigint agrees with exact integer comparison here: it is exact below `2^53`,
and any bigint above `MAX_SAFE_INTEGER` rounds to a double still above it. -/
def times (n : Int) : List Nat :=
  if n < 1 ∨ 9007199254740991 < n then []
  else List.range (min n.toNat 4294967295)

/-- The context string shared by all four error sites, rendering the
template literal `Generating record constraints for (args.map(a =>
expressionToString(a[0])))`; a JavaScript array interpolates as its
elements joined by commas. -/
def recordErrorContext (args : List (QuintEx × QuintType)) : String :=
  "Generating record constraints for " ++
    String.intercalate "," (args.map fun a => expressionToString a.1)

/-- The callback the record constructor rule maps over the chunks: the
destructuring `[[key, _keyType], [_value, valueType]]` of a chunk throws
(`none`) unless the chunk has exactly two elements; a non-string-literal
key yields the validation error, and a string-literal key yields the
record field. -/
def recChunkCheck (args : List (QuintEx × QuintType)) (c : List (QuintEx × QuintType)) :
    Option (Except Error RowField) :=
  match c with
  | [(key, _keyType), (_value, valueType)] =>
    some (match key with
      | QuintEx.strEx _ v => Except.ok (RowField.mk v valueType)
      | _ =>
        Except.error (buildErrorLeaf (recordErrorContext args)
          ("Record field name must be a name expression but is " ++ key.kind ++ ": " ++
            expressionToString key)))
  | _ => none

/-- `recordConstructorConstraints` (specialConstraints.ts): chunks the
arguments into `(key, value)` pairs, validates every key to be a string
literal, and on success emits one equality between the closed record row
and the result variable.  A trailing odd chunk makes the TypeScript pair
destructuring throw, hence the `none`. -/
def recordConstructorConstraints (id : Nat) (args : List (QuintEx × QuintType))
    (resultTypeVar : QuintVarType) : Option (Except Error (List Constraint)) := do
  let fields ← mapOrThrow (recChunkCheck args) (chunk2 args)
  some ((mergeInMany fields).map fun fs =>
    [Constraint.eq (QuintType.record (Row.row fs Row.empty)) resultTypeVar.toQuintType id])

/-- `fieldConstraints` (specialConstraints.ts): destructures the record and
field-name arguments (throwing, i.e. `none`, when fewer than two are
present), validates the field name to be a string literal, and emits one
equality between the record argument's type and an open record row with the
single known field typed by the result variable. -/
def fieldConstraints (id : Nat) (args : List (QuintEx × QuintType))
    (resultTypeVar : QuintVarType) : Option (Except Error (List Constraint)) :=
  match args with
  | (_rec, recType) :: (fieldName, _fieldNameType) :: _ =>
    some (match fieldName with
      | QuintEx.strEx _ v =>
        let generalRecType : QuintType :=
          QuintType.record (Row.row [RowField.mk v resultTypeVar.toQuintType]
            (Row.var ("tail_" ++ resultTypeVar.name)))
        Except.ok [Constraint.eq recType generalRecType id]
      | _ =>
        Except.error (buildErrorLeaf (recordErrorContext args)
          ("Record field name must be a string expression but is " ++ fieldName.kind ++ ": " ++
            expressionToString fieldName)))
  | _ => none

/-- `fieldNamesConstraints` (specialConstraints.ts): destructures the one
record argument (throwing, i.e. `none`, on an empty list) and emits two
equalities: the result variable is a set of strings, and the record
argument's type is a record whose row is entirely a derived row variable. -/
def fieldNamesConstraints (id : Nat) (args : List (QuintEx × QuintType))
    (resultTypeVar : QuintVarType) : Option (Except Error (List Constraint)) :=
  match args with
  | (_rec, recType) :: _ =>
    let generalRecType : QuintType := QuintType.record (Row.var ("rec_" ++ resultTypeVar.name))
    let c1 : Constraint :=
      Constraint.eq resultTypeVar.toQuintType (QuintType.set QuintType.str) id
    let c2 : Constraint := Constraint.eq recType generalRecType id
    some (Except.ok [c1, c2])
  | _ => none

/-- `withConstraints` (specialConstraints.ts): destructures the record,
field-name and value arguments (throwing, i.e. `none`, when fewer than
three are present), validates the field name to be a string literal, and
emits two equalities against one shared open record row whose single known
field carries the value's type. -/
def withConstraints (id : Nat) (args : List (QuintEx × QuintType))
    (resultTypeVar : QuintVarType) : Option (Except Error (List Constraint)) :=
  match args with
  | (_rec, recType) :: (fieldName, _fieldNameType) :: (_value, valueType) :: _ =>
    some (match fieldName with
      | QuintEx.strEx _ v =>
        let generalRecType : QuintType :=
          QuintType.record (Row.row [RowField.mk v valueType]
            (Row.var ("tail_" ++ resultTypeVar.name)))
        Except.ok [Constraint.eq recType generalRecType id,
          Constraint.eq resultTypeVar.toQuintType generalRecType id]
      | _ =>
        Except.error (buildErrorLeaf (recordErrorContext args)
          ("Record field name must be a string expression but is " ++ fieldName.kind ++ ": " ++
            expressionToString fieldName)))
  | _ => none

/-- `tupleConstructorConstraints` (specialConstraints.ts): emits one
equality between the closed tuple row, whose fields are the argument types
under their stringified positions, and the result variable. -/
def tupleConstructorConstraints (id : Nat) (args : List (QuintEx × QuintType))
    (resultTypeVar : QuintVarType) : Option (Except Error (List Constraint)) :=
  let fields := args.enum.map fun it => RowField.mk (toString it.1) it.2.2
  let t2 : QuintType := QuintType.tup (Row.row fields Row.empty)
  some (Except.ok [Constraint.eq t2 resultTypeVar.toQuintType id])

/-- `itemConstraints` (specialConstraints.ts): destructures the tuple and
index arguments (throwing, i.e. `none`, when fewer than two are present),
validates the index to be an integer literal, and emits one equality
between the tuple argument's type and an open tuple row with placeholder
variables below the accessed position. -/
def itemConstraints (id : Nat) (args : List (QuintEx × QuintType))
    (resultTypeVar : QuintVarType) : Option (Except Error (List Constraint)) :=
  match args with
  | (_tup, tupType) :: (itemName, _itemNameType) :: _ =>
    some (match itemName with
      | QuintEx.intEx _ value =>
        let fields : List RowField := (times (value - 1)).map fun i =>
          RowField.mk (toString i)
            (QuintType.var ("tup_" ++ resultTypeVar.name ++ "_" ++ toString i))
        let fields := fields ++ [RowField.mk (toString (value - 1)) resultTypeVar.toQuintType]
        let generalTupType : QuintType :=
          QuintType.tup (Row.row fields (Row.var ("tail_" ++ resultTypeVar.name)))
        Except.ok [Constraint.eq tupType generalTupType id]
      | _ =>
        Except.error (buildErrorLeaf (recordErrorContext args)
          ("Tup field index must be an int expression but is " ++ itemName.kind ++ ": " ++
            expressionToString itemName)))
  | _ => none

/-- `specialConstraints` (specialConstraints.ts): dispatches on the opcode
to one of the six rules, and returns success with no constraints for every
other opcode. -/
def specialConstraints (opcode : String) (id : Nat)
    (args : List (QuintEx × QuintType)) (resultTypeVar : QuintVarType) :
    Option (Except Error (List Constraint)) :=
  match opcode with
  | "Rec" => recordConstructorConstraints id args resultTypeVar
  | "field" => fieldConstraints id args resultTypeVar
  | "fieldNames" => fieldNamesConstraints id args resultTypeVar
  | "with" => withConstraints id args resultTypeVar
  | "Tup" => tupleConstructorConstraints id args resultTypeVar
  | "item" => itemConstraints id args resultTypeVar
  | _ => some (Except.ok [])

/-- Statement helper: the per-pair key validation performed by the record
constructor rule, as a function of the full argument list (which every
error leaf mentions in its context string). -/
def recFieldCheck (args : List (QuintEx × QuintType))
    (p : (QuintEx × QuintType) × (QuintEx × QuintType)) : Except Error RowField :=
  match p.1.1 with
  | QuintEx.strEx _ v => Except.ok (RowField.mk v p.2.2)
  | key =>
    Except.error (buildErrorLeaf (recordErrorContext args)
      ("Record field name must be a name expression but is " ++ key.kind ++ ": " ++
        expressionToString key))

/-- Statement helper: the arity each rule's TypeScript destructuring needs
in order not to throw: an even number of arguments for `Rec`, at least two
for `field` and `item`, at least one for `fieldNames`, at least three for
`with`, and anything for `Tup` and for unrecognized opcodes. -/
def destructuringOk (opcode : String) (args : List (QuintEx × QuintType)) : Prop :=
  match opcode with
  | "Rec" => args.length % 2 = 0
  | "field" => 2 ≤ args.length
  | "fieldNames" => 1 ≤ args.length
  | "with" => 3 ≤ args.length
  | "item" => 2 ≤ args.length
  | _ => True

/-- Statement helper: the known fields of the row in the first emitted
constraint's right-hand tuple type, when the result has that shape. -/
def tupFieldsOfResult : Option (Except Error (List Constraint)) → List RowField
  | some (Except.ok (Constraint.eq _ (QuintType.tup (Row.row fs _)) _ :: _)) => fs
  | _ => []

/-! General lemmas about the combinators. -/

theorem chunk2_flatMap {α β : Type} (f g : β → α) (ps : List β) :
    chunk2 (ps.flatMap fun p => [f p, g p]) = ps.map fun p => [f p, g p] := by
  induction ps with
  | nil => rfl
  | cons p rest ih =>
    rw [List.flatMap_cons]
    show [f p, g p] :: chunk2 (rest.flatMap fun p => [f p, g p]) = _
    rw [ih]
    rfl

theorem mapOrThrow_map_some {α β γ : Type} (l : List α) (m : α → β) (F : β → Option γ)
    (G : α → γ) (h : ∀ a, F (m a) = some (G a)) :
    mapOrThrow F (l.map m) = some (l.map G) := by
  induction l with
  | nil => rfl
  | cons a rest ih => simp [mapOrThrow, h a, ih]

theorem mapOrThrow_isSome {α β : Type} {F : α → Option β} : ∀ (l : List α),
    (∀ a ∈ l, (F a).isSome) → (mapOrThrow F l).isSome
  | [], _ => rfl
  | a :: rest, h => by
    obtain ⟨b, hb⟩ := Option.isSome_iff_exists.mp (h a (List.mem_cons_self a rest))
    obtain ⟨bs, hbs⟩ :=
      Option.isSome_iff_exists.mp
        (mapOrThrow_isSome rest (fun x hx => h x (List.mem_cons_of_mem a hx)))
    simp [mapOrThrow, hb, hbs]

theorem filterMap_errValue_all_ok {α β : Type} (l : List α) (g : α → β) :
    (l.map fun a => Except.ok (g a)).filterMap errValue = ([] : List Error) := by
  induction l with
  | nil => rfl
  | cons a rest ih => simp only [List.map_cons, List.filterMap_cons, errValue, ih]

theorem filterMap_okValue_all_ok {α β : Type} (l : List α) (g : α → β) :
    (l.map fun a => Except.ok (g a)).filterMap okValue = l.map g := by
  induction l with
  | nil => rfl
  | cons a rest ih => simp only [List.map_cons, List.filterMap_cons, okValue, ih]

theorem mergeInMany_map_ok {α β : Type} (l : List α) (g : α → β) :
    mergeInMany (l.map fun a => Except.ok (g a)) = Except.ok (l.map g) := by
  show (if ((l.map fun a => Except.ok (g a)).filterMap errValue).isEmpty = true then
      Except.ok ((l.map fun a => Except.ok (g a)).filterMap okValue)
    else Except.error (Error.many ((l.map fun a => Except.ok (g a)).filterMap errValue))) =
    Except.ok (l.map g)
  rw [filterMap_errValue_all_ok, filterMap_okValue_all_ok]
  rfl

theorem chunk2_all_pairs {α : Type} : ∀ (l : List α), l.length % 2 = 0 →
    ∀ c ∈ chunk2 l, ∃ x y, c = [x, y]
  | [], _, c, hc => by simp [chunk2] at hc
  | [a], h, c, hc => by simp at h
  | a :: b :: rest, h, c, hc => by
    simp only [chunk2, List.mem_cons] at hc
    rcases hc with rfl | hc
    · exact ⟨a, b, rfl⟩
    · exact chunk2_all_pairs rest (by simp only [List.length_cons] at h; omega) c hc

theorem filterMap_congr_mem {α β : Type} {f g : α → Option β} : ∀ (l : List α),
    (∀ a ∈ l, f a = g a) → l.filterMap f = l.filterMap g
  | [], _ => rfl
  | a :: rest, h => by
    simp only [List.filterMap_cons, h a (List.mem_cons_self a rest)]
    rw [filterMap_congr_mem rest (fun x hx => h x (List.mem_cons_of_mem a hx))]

theorem recChunkCheck_pair (args : List (QuintEx × QuintType))
    (p : (QuintEx × QuintType) × (QuintEx × QuintType)) :
    recChunkCheck args [p.1, p.2] = some (recFieldCheck args p) := by
  rcases p with ⟨⟨key, kt⟩, v, vt⟩
  cases key <;> rfl

/-- Bridge: the record constructor rule on an explicitly paired argument
list reduces to `mergeInMany` of the per-pair checks. -/
theorem recordConstructorConstraints_pairs (id : Nat)
    (ps : List ((QuintEx × QuintType) × (QuintEx × QuintType))) (X : QuintVarType) :
    recordConstructorConstraints id (ps.flatMap fun p => [p.1, p.2]) X =
    some ((mergeInMany (ps.map (recFieldCheck (ps.flatMap fun p => [p.1, p.2])))).map fun fs =>
      [Constraint.eq (QuintType.record (Row.row fs Row.empty)) (QuintType.var X.name) id]) := by
  unfold recordConstructorConstraints
  rw [chunk2_flatMap]
  rw [mapOrThrow_map_some ps (fun p => [p.1, p.2])
    (recChunkCheck (ps.flatMap fun p => [p.1, p.2]))
    (recFieldCheck (ps.flatMap fun p => [p.1, p.2]))
    (recChunkCheck_pair (ps.flatMap fun p => [p.1, p.2]))]
  rfl

theorem recordConstructorConstraints_isSome (id : Nat) (args : List (QuintEx × QuintType))
    (X : QuintVarType) (h : args.length % 2 = 0) :
    (recordConstructorConstraints id args X).isSome := by
  have hm : (mapOrThrow (recChunkCheck args) (chunk2 args)).isSome := by
    apply mapOrThrow_isSome
    intro c hc
    obtain ⟨x, y, rfl⟩ := chunk2_all_pairs args h c hc
    rcases x with ⟨key, kt⟩
    rcases y with ⟨v, vt⟩
    rfl
  obtain ⟨fields, hf⟩ := Option.isSome_iff_exists.mp hm
  unfold recordConstructorConstraints
  rw [hf]
  rfl

theorem tupFieldsOfResult_eq (t1 : QuintType) (fs : List RowField) (r : Row) (id : Nat)
    (rest : List Constraint) :
    tupFieldsOfResult (some (Except.ok
      (Constraint.eq t1 (QuintType.tup (Row.row fs r)) id :: rest))) = fs := rfl

/-! The claims. -/

/-- C1: a `with` call on `[(rec, recType), (stringLiteral f, _), (value, valueType)]`
with result variable `X` succeeds with exactly the two equality constraints
`Eq(recType, R)` and `Eq(X, R)`, in that order, where `R` is one and the
same open record row with single known field `(f, valueType)` and tail
variable `"tail_" ++ X.name`, shared identically between the two
constraints. -/
theorem with_constraints_share_open_row (id kid : Nat) (r v : QuintEx)
    (recType keyType valueType : QuintType) (f : String) (X : QuintVarType) :
    specialConstraints "with" id
      [(r, recType), (QuintEx.strEx kid f, keyType), (v, valueType)] X =
    some (Except.ok
      [Constraint.eq recType
        (QuintType.record (Row.row [RowField.mk f valueType]
          (Row.var ("tail_" ++ X.name)))) id,
       Constraint.eq (QuintType.var X.name)
        (QuintType.record (Row.row [RowField.mk f valueType]
          (Row.var ("tail_" ++ X.name)))) id]) := rfl

/-- C5: a `field` call on `[(rec, recType), (fieldNameExpr, _)]` with result
variable `X` succeeds, when the field name is a string literal `f`, with the
single constraint `Eq(recType, R)` for the open record row `R` with known
field `(f, X)` and tail `"tail_" ++ X.name`; and fails with the structured
validation error naming the non-literal expression otherwise. -/
theorem field_constraints_spec (id kid : Nat) (r e : QuintEx)
    (recType nameType : QuintType) (f : String) (X : QuintVarType) :
    (specialConstraints "field" id [(r, recType), (QuintEx.strEx kid f, nameType)] X =
      some (Except.ok [Constraint.eq recType
        (QuintType.record (Row.row [RowField.mk f (QuintType.var X.name)]
          (Row.var ("tail_" ++ X.name)))) id])) ∧
    (e.kind ≠ "str" →
      specialConstraints "field" id [(r, recType), (e, nameType)] X =
        some (Except.error (Error.leaf (recordErrorContext [(r, recType), (e, nameType)])
          ("Record field name must be a string expression but is " ++ e.kind ++ ": " ++
            expressionToString e)))) := by
  constructor
  · rfl
  · intro hk
    cases e <;> first | rfl | exact absurd rfl hk

/-- C5 witness: `field` on a record variable and the non-literal index `7`
fails with the validation error naming `7` and the argument list. -/
theorem field_constraints_spec_witness :
    specialConstraints "field" 3
      [(QuintEx.name 1 "r", QuintType.var "rt"), (QuintEx.intEx 2 7, QuintType.int)]
      (QuintVarType.mk "v1") =
    some (Except.error (Error.leaf "Generating record constraints for r,7"
      "Record field name must be a string expression but is int: 7")) :=
  (field_constraints_spec 3 0 (QuintEx.name 1 "r") (QuintEx.intEx 2 7)
    (QuintType.var "rt") QuintType.int "x" (QuintVarType.mk "v1")).2 (by decide)

/-- C6: a `Tup` call on any argument list succeeds (never fails) with the
single constraint `Eq(T, X)`, where `T` is the closed tuple row whose
fields are the argument types under their stringified positions
`"0", ..., "n-1"`, in argument order. -/
theorem tup_constructor_closed_row (id : Nat) (args : List (QuintEx × QuintType))
    (X : QuintVarType) :
    specialConstraints "Tup" id args X =
    some (Except.ok [Constraint.eq
      (QuintType.tup (Row.row (args.enum.map fun it => RowField.mk (toString it.1) it.2.2)
        Row.empty))
      (QuintType.var X.name) id]) := rfl

/-- C7: a `fieldNames` call on one argument `(rec, recType)` with result
variable `X` always succeeds with exactly the two constraints
`Eq(X, Set(str))` and `Eq(recType, Record(Var("rec_" ++ X.name)))`, in that
order, where the record's row is entirely the derived row variable. -/
theorem fieldNames_set_and_open_record (id : Nat) (r : QuintEx) (recType : QuintType)
    (X : QuintVarType) :
    specialConstraints "fieldNames" id [(r, recType)] X =
    some (Except.ok [
      Constraint.eq (QuintType.var X.name) (QuintType.set QuintType.str) id,
      Constraint.eq recType (QuintType.record (Row.var ("rec_" ++ X.name))) id]) := rfl

/-- C8: any opcode other than the six special ones returns success with an
empty constraint list, for every argument list and result variable. -/
theorem other_opcode_empty_constraints (opcode : String) (id : Nat)
    (args : List (QuintEx × QuintType)) (X : QuintVarType)
    (h1 : opcode ≠ "Rec") (h2 : opcode ≠ "field") (h3 : opcode ≠ "fieldNames")
    (h4 : opcode ≠ "with") (h5 : opcode ≠ "Tup") (h6 : opcode ≠ "item") :
    specialConstraints opcode id args X = some (Except.ok []) := by
  unfold specialConstraints
  split
  · exact absurd rfl h1
  · exact absurd rfl h2
  · exact absurd rfl h3
  · exact absurd rfl h4
  · exact absurd rfl h5
  · exact absurd rfl h6
  · rfl

/-- C8 witness: the ordinary opcode `iadd` passes through with no
constraints, even on an odd-shaped argument list. -/
theorem other_opcode_empty_constraints_witness :
    specialConstraints "iadd" 9 [(QuintEx.intEx 1 1, QuintType.int)] (QuintVarType.mk "v1") =
    some (Except.ok []) :=
  other_opcode_empty_constraints "iadd" 9 [(QuintEx.intEx 1 1, QuintType.int)]
    (QuintVarType.mk "v1") (by decide) (by decide) (by decide) (by decide) (by decide)
    (by decide)

/-- C10: an `item` call whose integer-literal index `N` is non-positive does
not fail: it succeeds with the single constraint `Eq(tupType, T)` where `T`
is an open tuple row with no placeholder fields and exactly one known field
named by the decimal string of `N - 1` (for example `"-1"` when `N = 0`),
typed with the result variable, and tail `"tail_" ++ X.name`. -/
theorem item_nonpositive_index (id iid : Nat) (t : QuintEx) (tupType idxType : QuintType)
    (N : Int) (X : QuintVarType) (h : N ≤ 0) :
    specialConstraints "item" id [(t, tupType), (QuintEx.intEx iid N, idxType)] X =
    some (Except.ok [Constraint.eq tupType
      (QuintType.tup (Row.row [RowField.mk (toString (N - 1)) (QuintType.var X.name)]
        (Row.var ("tail_" ++ X.name)))) id]) := by
  have ht : times (N - 1) = [] := by
    unfold times
    rw [if_pos (Or.inl (by omega))]
  have key : specialConstraints "item" id [(t, tupType), (QuintEx.intEx iid N, idxType)] X =
      some (Except.ok [Constraint.eq tupType
        (QuintType.tup (Row.row
          (((times (N - 1)).map fun i =>
              RowField.mk (toString i) (QuintType.var ("tup_" ++ X.name ++ "_" ++ toString i))) ++
            [RowField.mk (toString (N - 1)) (QuintType.var X.name)])
          (Row.var ("tail_" ++ X.name)))) id]) := rfl
  rw [key, ht]
  rfl

/-- C10 witness: `item` with index literal `0` yields the single known
field `"-1"` typed with the result variable. -/
theorem item_nonpositive_index_witness :
    specialConstraints "item" 4
      [(QuintEx.name 1 "t", QuintType.var "tt"), (QuintEx.intEx 2 0, QuintType.int)]
      (QuintVarType.mk "v1") =
    some (Except.ok [Constraint.eq (QuintType.var "tt")
      (QuintType.tup (Row.row [RowField.mk "-1" (QuintType.var "v1")]
        (Row.var "tail_v1"))) 4]) :=
  item_nonpositive_index 4 2 (QuintEx.name 1 "t") (QuintType.var "tt") QuintType.int 0
    (QuintVarType.mk "v1") (by decide)

/-- C3: a `Rec` call on an even-length list of alternating `(key, value)`
pairs whose keys are all string literals succeeds with exactly one
constraint `Eq(R, X)`, where `R` is the closed record row (tail `empty`)
whose fields are the `(key literal value, value argument type)` pairs in
original pair order; duplicate key literals are passed through unchecked
(the pair list is entirely unconstrained). -/
theorem rec_constructor_closed_record (id : Nat)
    (ps : List ((Nat × String × QuintType) × (QuintEx × QuintType))) (X : QuintVarType) :
    specialConstraints "Rec" id
      (ps.flatMap fun p => [(QuintEx.strEx p.1.1 p.1.2.1, p.1.2.2), p.2]) X =
    some (Except.ok [Constraint.eq
      (QuintType.record (Row.row (ps.map fun p => RowField.mk p.1.2.1 p.2.2) Row.empty))
      (QuintType.var X.name) id]) := by
  have henc : (ps.flatMap fun p => [(QuintEx.strEx p.1.1 p.1.2.1, p.1.2.2), p.2]) =
      ((ps.map fun p => ((QuintEx.strEx p.1.1 p.1.2.1, p.1.2.2), p.2)).flatMap
        fun p => [p.1, p.2]) := by
    induction ps with
    | nil => rfl
    | cons p rest ih => simp only [List.flatMap_cons, List.map_cons, ih]
  show recordConstructorConstraints id
      (ps.flatMap fun p => [(QuintEx.strEx p.1.1 p.1.2.1, p.1.2.2), p.2]) X = _
  rw [henc, recordConstructorConstraints_pairs, List.map_map]
  have hfn : (recFieldCheck
        ((ps.map fun p => ((QuintEx.strEx p.1.1 p.1.2.1, p.1.2.2), p.2)).flatMap
          fun p => [p.1, p.2]) ∘ fun p => ((QuintEx.strEx p.1.1 p.1.2.1, p.1.2.2), p.2)) =
      fun (p : (Nat × String × QuintType) × (QuintEx × QuintType)) =>
        Except.ok (RowField.mk p.1.2.1 p.2.2) := funext fun p => rfl
  rw [hfn, mergeInMany_map_ok]
  rfl

/-- C4 (amended): a `Rec` call on an even-length pair list in which at least
one key is not a string literal fails, and the returned error aggregates
one validation error per failing key, in argument order, each naming that
key expression and the full argument list (not only the first failing
key). -/
theorem rec_constructor_error_aggregation (id : Nat)
    (ps : List ((QuintEx × QuintType) × (QuintEx × QuintType))) (X : QuintVarType)
    (hbad : ∃ p ∈ ps, p.1.1.kind ≠ "str") :
    specialConstraints "Rec" id (ps.flatMap fun p => [p.1, p.2]) X =
    some (Except.error (Error.many (ps.filterMap fun p =>
      match p.1.1 with
      | QuintEx.strEx _ _ => none
      | key => some (Error.leaf (recordErrorContext (ps.flatMap fun q => [q.1, q.2]))
          ("Record field name must be a name expression but is " ++ key.kind ++ ": " ++
            expressionToString key))))) := by
  show recordConstructorConstraints id (ps.flatMap fun p => [p.1, p.2]) X = _
  rw [recordConstructorConstraints_pairs]
  have hlefts : (ps.map (recFieldCheck (ps.flatMap fun p => [p.1, p.2]))).filterMap errValue =
      ps.filterMap fun p =>
        match p.1.1 with
        | QuintEx.strEx _ _ => none
        | key => some (Error.leaf (recordErrorContext (ps.flatMap fun q => [q.1, q.2]))
            ("Record field name must be a name expression but is " ++ key.kind ++ ": " ++
              expressionToString key)) := by
    rw [List.filterMap_map]
    apply filterMap_congr_mem
    intro p _
    rcases p with ⟨⟨key, kt⟩, v, vt⟩
    cases key <;> rfl
  have hne : (ps.filterMap fun p =>
      match p.1.1 with
      | QuintEx.strEx _ _ => none
      | key => some (Error.leaf (recordErrorContext (ps.flatMap fun q => [q.1, q.2]))
          ("Record field name must be a name expression but is " ++ key.kind ++ ": " ++
            expressionToString key))) ≠ [] := by
    obtain ⟨p, hp, hk⟩ := hbad
    rcases p with ⟨⟨key, kt⟩, v, vt⟩
    cases key <;>
      first
        | exact absurd rfl hk
        | exact List.ne_nil_of_mem (List.mem_filterMap.mpr ⟨_, hp, rfl⟩)
  have hmerge : mergeInMany (ps.map (recFieldCheck (ps.flatMap fun p => [p.1, p.2]))) =
      Except.error (Error.many (ps.filterMap fun p =>
        match p.1.1 with
        | QuintEx.strEx _ _ => none
        | key => some (Error.leaf (recordErrorContext (ps.flatMap fun q => [q.1, q.2]))
            ("Record field name must be a name expression but is " ++ key.kind ++ ": " ++
              expressionToString key)))) := by
    simp only [mergeInMany]
    rw [hlefts, if_neg (fun hE => hne (List.isEmpty_iff.mp hE))]
  rw [hmerge]
  rfl

/-- C4 counterexample: a `Rec` call with the two non-literal keys `1` and
`2` returns an error carrying TWO distinct validation leaves, one per
failing key — not the single validation error for the first failing key
that the claim demands. -/
theorem rec_reports_all_bad_keys_counterexample :
    specialConstraints "Rec" 0
      [(QuintEx.intEx 1 1, QuintType.int), (QuintEx.name 2 "v", QuintType.int),
       (QuintEx.intEx 3 2, QuintType.int), (QuintEx.name 4 "w", QuintType.int)]
      (QuintVarType.mk "v1") =
    some (Except.error (Error.many
      [Error.leaf "Generating record constraints for 1,v,2,w"
         "Record field name must be a name expression but is int: 1",
       Error.leaf "Generating record constraints for 1,v,2,w"
         "Record field name must be a name expression but is int: 2"])) ∧
    Error.leaf "Generating record constraints for 1,v,2,w"
        "Record field name must be a name expression but is int: 2" ≠
      Error.leaf "Generating record constraints for 1,v,2,w"
        "Record field name must be a name expression but is int: 1" ∧
    Error.many
        [Error.leaf "Generating record constraints for 1,v,2,w"
           "Record field name must be a name expression but is int: 1",
         Error.leaf "Generating record constraints for 1,v,2,w"
           "Record field name must be a name expression but is int: 2"] ≠
      Error.leaf "Generating record constraints for 1,v,2,w"
        "Record field name must be a name expression but is int: 1" := by
  refine ⟨rfl, ?_, ?_⟩
  · intro h
    injection h with h1 h2
    exact absurd h2 (by decide)
  · intro h
    exact Error.noConfusion h

/-- C4 witness: a `Rec` call with the one bad key `1` fails with the
aggregated error list holding that key's validation leaf. -/
theorem rec_constructor_error_aggregation_witness :
    specialConstraints "Rec" 0
      [(QuintEx.intEx 1 1, QuintType.int), (QuintEx.name 2 "v", QuintType.int)]
      (QuintVarType.mk "v1") =
    some (Except.error (Error.many
      [Error.leaf "Generating record constraints for 1,v"
        "Record field name must be a name expression but is int: 1"])) :=
  rec_constructor_error_aggregation 0
    [((QuintEx.intEx 1 1, QuintType.int), (QuintEx.name 2 "v", QuintType.int))]
    (QuintVarType.mk "v1") (by decide)

/-- C2 counterexample: at the integer-literal index `N = 2^53 + 1` the rule
succeeds, but the emitted open tuple row contains NO placeholder fields
(lodash `times` returns the empty array above `Number.MAX_SAFE_INTEGER`),
so the claimed row with placeholder positions `"0" .. "N-2"` is not what
the call returns. -/
theorem item_placeholder_truncation_counterexample :
    ¬ (specialConstraints "item" 0
        [(QuintEx.name 1 "t", QuintType.var "tt"),
         (QuintEx.intEx 2 9007199254740993, QuintType.int)] (QuintVarType.mk "v1") =
      some (Except.ok [Constraint.eq (QuintType.var "tt")
        (QuintType.tup (Row.row
          (((List.range ((9007199254740993 : Int) - 1).toNat).map fun i =>
              RowField.mk (toString i) (QuintType.var ("tup_v1_" ++ toString i))) ++
            [RowField.mk (toString ((9007199254740993 : Int) - 1)) (QuintType.var "v1")])
          (Row.var "tail_v1"))) 0])) := by
  intro hcl
  have hev : specialConstraints "item" 0
      [(QuintEx.name 1 "t", QuintType.var "tt"),
       (QuintEx.intEx 2 9007199254740993, QuintType.int)] (QuintVarType.mk "v1") =
      some (Except.ok [Constraint.eq (QuintType.var "tt")
        (QuintType.tup (Row.row [RowField.mk "9007199254740992" (QuintType.var "v1")]
          (Row.var "tail_v1"))) 0]) := rfl
  have hA : tupFieldsOfResult (some (Except.ok [Constraint.eq (QuintType.var "tt")
      (QuintType.tup (Row.row [RowField.mk "9007199254740992" (QuintType.var "v1")]
        (Row.var "tail_v1"))) 0])) =
      [RowField.mk "9007199254740992" (QuintType.var "v1")] :=
    tupFieldsOfResult_eq (QuintType.var "tt")
      [RowField.mk "9007199254740992" (QuintType.var "v1")] (Row.var "tail_v1") 0 []
  have hB : tupFieldsOfResult (some (Except.ok [Constraint.eq (QuintType.var "tt")
      (QuintType.tup (Row.row
        (((List.range ((9007199254740993 : Int) - 1).toNat).map fun i =>
            RowField.mk (toString i) (QuintType.var ("tup_v1_" ++ toString i))) ++
          [RowField.mk (toString ((9007199254740993 : Int) - 1)) (QuintType.var "v1")])
        (Row.var "tail_v1"))) 0])) =
      ((List.range ((9007199254740993 : Int) - 1).toNat).map fun i =>
          RowField.mk (toString i) (QuintType.var ("tup_v1_" ++ toString i))) ++
        [RowField.mk (toString ((9007199254740993 : Int) - 1)) (QuintType.var "v1")] :=
    tupFieldsOfResult_eq (QuintType.var "tt")
      (((List.range ((9007199254740993 : Int) - 1).toNat).map fun i =>
          RowField.mk (toString i) (QuintType.var ("tup_v1_" ++ toString i))) ++
        [RowField.mk (toString ((9007199254740993 : Int) - 1)) (QuintType.var "v1")])
      (Row.var "tail_v1") 0 []
  have hfs := (hA.symm.trans (congrArg tupFieldsOfResult (hev.symm.trans hcl))).trans hB
  have hlen := congrArg List.length hfs
  rw [List.length_append, List.length_map, List.length_range] at hlen
  have hone : [RowField.mk "9007199254740992" (QuintType.var "v1")].length = 1 := rfl
  rw [hone] at hlen
  have htwo : [RowField.mk (toString ((9007199254740993 : Int) - 1))
      (QuintType.var "v1")].length = 1 := rfl
  rw [htwo] at hlen
  have hN : ((9007199254740993 : Int) - 1).toNat = 9007199254740992 := rfl
  rw [hN] at hlen
  exact absurd hlen (by decide)

/-- C2 (amended): an `item` call on `[(tup, tupType), (indexExpr, _)]` fails
with the structured validation error when the index is not an integer
literal; when the index is an integer literal `N` with `1 ≤ N ≤ 2^32` it
succeeds with the single constraint `Eq(tupType, T)`, where `T` is the open
tuple row with placeholder fields `"0" .. "N-2"` typed by the derived
variables `"tup_" ++ X.name ++ "_" ++ i`, the field `"N-1"` typed by the
result variable, and tail `"tail_" ++ X.name`.  (For larger `N` the lodash
`times` call truncates or drops the placeholder list, so the claimed shape
fails; see the counterexample.) -/
theorem item_constraints_bounded_index (id iid : Nat) (t e : QuintEx)
    (tupType idxType : QuintType) (N : Int) (X : QuintVarType)
    (h1 : 1 ≤ N) (h2 : N ≤ 4294967296) :
    (specialConstraints "item" id [(t, tupType), (QuintEx.intEx iid N, idxType)] X =
      some (Except.ok [Constraint.eq tupType
        (QuintType.tup (Row.row
          (((List.range (N - 1).toNat).map fun i =>
              RowField.mk (toString i)
                (QuintType.var ("tup_" ++ X.name ++ "_" ++ toString i))) ++
            [RowField.mk (toString (N - 1)) (QuintType.var X.name)])
          (Row.var ("tail_" ++ X.name)))) id])) ∧
    (e.kind ≠ "int" →
      specialConstraints "item" id [(t, tupType), (e, idxType)] X =
        some (Except.error (Error.leaf
          (recordErrorContext [(t, tupType), (e, idxType)])
          ("Tup field index must be an int expression but is " ++ e.kind ++ ": " ++
            expressionToString e)))) := by
  constructor
  · have ht : times (N - 1) = List.range (N - 1).toNat := by
      by_cases hN : N = 1
      · subst hN
        rfl
      · unfold times
        rw [if_neg (by omega), min_eq_left (by omega)]
    have key : specialConstraints "item" id [(t, tupType), (QuintEx.intEx iid N, idxType)] X =
        some (Except.ok [Constraint.eq tupType
          (QuintType.tup (Row.row
            (((times (N - 1)).map fun i =>
                RowField.mk (toString i)
                  (QuintType.var ("tup_" ++ X.name ++ "_" ++ toString i))) ++
              [RowField.mk (toString (N - 1)) (QuintType.var X.name)])
            (Row.var ("tail_" ++ X.name)))) id]) := rfl
    rw [key, ht]
  · intro hk
    cases e <;> first | rfl | exact absurd rfl hk

/-- C2 witness: `item` with the literal index `3` yields placeholders at
`"0"` and `"1"` and the result variable at `"2"`, and `item` with a string
literal fails with the validation error naming it. -/
theorem item_constraints_bounded_index_witness :
    (specialConstraints "item" 5
      [(QuintEx.name 1 "t", QuintType.var "tt"), (QuintEx.intEx 2 3, QuintType.int)]
      (QuintVarType.mk "v1") =
    some (Except.ok [Constraint.eq (QuintType.var "tt")
      (QuintType.tup (Row.row
        [RowField.mk "0" (QuintType.var "tup_v1_0"),
         RowField.mk "1" (QuintType.var "tup_v1_1"),
         RowField.mk "2" (QuintType.var "v1")]
        (Row.var "tail_v1"))) 5])) ∧
    (specialConstraints "item" 5
      [(QuintEx.name 1 "t", QuintType.var "tt"), (QuintEx.strEx 2 "a", QuintType.str)]
      (QuintVarType.mk "v1") =
    some (Except.error (Error.leaf "Generating record constraints for t,\"a\""
      "Tup field index must be an int expression but is str: \"a\""))) :=
  ⟨(item_constraints_bounded_index 5 2 (QuintEx.name 1 "t") (QuintEx.strEx 2 "a")
      (QuintType.var "tt") QuintType.int 3 (QuintVarType.mk "v1") (by decide) (by decide)).1,
   (item_constraints_bounded_index 5 2 (QuintEx.name 1 "t") (QuintEx.strEx 2 "a")
      (QuintType.var "tt") QuintType.str 3 (QuintVarType.mk "v1") (by decide) (by decide)).2
     (by decide)⟩

/-- C9 counterexample: calling the `field` rule with an empty argument list
makes the TypeScript destructuring throw (modelled by `none`), so the
function does not return a structured value for every input. -/
theorem specialConstraints_throws_on_short_args :
    specialConstraints "field" 0 [] (QuintVarType.mk "v1") = none := rfl

theorem fieldConstraints_isSome (id : Nat) (args : List (QuintEx × QuintType))
    (X : QuintVarType) (h : 2 ≤ args.length) : (fieldConstraints id args X).isSome := by
  rcases args with _ | ⟨⟨r, rt⟩, _ | ⟨⟨fn, ft⟩, rest⟩⟩
  · simp at h
  · simp at h
  · rfl

theorem fieldNamesConstraints_isSome (id : Nat) (args : List (QuintEx × QuintType))
    (X : QuintVarType) (h : 1 ≤ args.length) : (fieldNamesConstraints id args X).isSome := by
  rcases args with _ | ⟨⟨r, rt⟩, rest⟩
  · simp at h
  · rfl

theorem withConstraints_isSome (id : Nat) (args : List (QuintEx × QuintType))
    (X : QuintVarType) (h : 3 ≤ args.length) : (withConstraints id args X).isSome := by
  rcases args with _ | ⟨⟨r, rt⟩, _ | ⟨⟨fn, ft⟩, _ | ⟨⟨v, vt⟩, rest⟩⟩⟩
  · simp at h
  · simp at h
  · simp at h
  · rfl

theorem itemConstraints_isSome (id : Nat) (args : List (QuintEx × QuintType))
    (X : QuintVarType) (h : 2 ≤ args.length) : (itemConstraints id args X).isSome := by
  rcases args with _ | ⟨⟨tp, tt⟩, _ | ⟨⟨ix, it⟩, rest⟩⟩
  · simp at h
  · simp at h
  · rfl

/-- C9 (amended): whenever the argument list satisfies the arity the
dispatched rule destructures (an even number of arguments for `Rec`, at
least two for `field` and `item`, at least one for `fieldNames`, at least
three for `with`, anything for `Tup` and for other opcodes),
`specialConstraints` terminates normally and returns a value — a
structured error or a constraint list — without throwing.  (With fewer
arguments the TypeScript array destructuring throws; see the
counterexample.) -/
theorem specialConstraints_total_when_arity_ok (opcode : String) (id : Nat)
    (args : List (QuintEx × QuintType)) (X : QuintVarType)
    (h : destructuringOk opcode args) : (specialConstraints opcode id args X).isSome := by
  unfold specialConstraints
  split
  · exact recordConstructorConstraints_isSome id args X (by simpa [destructuringOk] using h)
  · exact fieldConstraints_isSome id args X (by simpa [destructuringOk] using h)
  · exact fieldNamesConstraints_isSome id args X (by simpa [destructuringOk] using h)
  · exact withConstraints_isSome id args X (by simpa [destructuringOk] using h)
  · rfl
  · exact itemConstraints_isSome id args X (by simpa [destructuringOk] using h)
  · rfl

/-- C9 witness: a well-formed two-argument `Rec` call returns a value. -/
theorem specialConstraints_total_when_arity_ok_witness :
    (specialConstraints "Rec" 0
      [(QuintEx.strEx 1 "a", QuintType.str), (QuintEx.name 2 "v", QuintType.int)]
      (QuintVarType.mk "v1")).isSome :=
  specialConstraints_total_when_arity_ok "Rec" 0
    [(QuintEx.strEx 1 "a", QuintType.str), (QuintEx.name 2 "v", QuintType.int)]
    (QuintVarType.mk "v1") (by rfl)

end Quint
